import Mathlib

/-!
Verification of the Build-Change Triggered Dispatch Engine
(`src/ejenti/pulse_modules/tasksTrigger.py`, class `TasksTrigger`).

The Python module is shallowly embedded below.  Python dictionaries are
modelled as association lists (`dictLookup` / `dictSet`), the on-disk
signature folders (`.md5`, `.timestamp`) as association lists from job
name to the stored string, exceptions as `Except Unit`, and the external
collaborators (network, MD5, publisher, status-file writer) as explicit
parameters or event traces.  Each definition is translated from the
source function of the same name; modelling notes for collaborators that
are not part of the repository sources are given on the definitions.
-/

/-- Lookup in a Python-dict model: first binding of the key, if any. -/
def dictLookup {α : Type} (d : List (String × α)) (k : String) : Option α :=
  (d.find? (fun p => p.1 = k)).map (fun p => p.2)

/-- Python-dict assignment `d[k] = v`: overwrite the binding in place if
the key is present, otherwise append the new binding. -/
def dictSet {α : Type} (d : List (String × α)) (k : String) (v : α) :
    List (String × α) :=
  if d.any (fun p => p.1 = k) then
    d.map (fun p => if p.1 = k then (k, v) else p)
  else
    d ++ [(k, v)]

theorem dictLookup_cons_of_pos {α : Type} (k' : String) (p : String × α)
    (l : List (String × α)) (h : p.1 = k') : dictLookup (p :: l) k' = some p.2 := by
  unfold dictLookup
  rw [List.find?_cons_of_pos _ (by simpa using h)]
  rfl

theorem dictLookup_cons_of_neg {α : Type} (k' : String) (p : String × α)
    (l : List (String × α)) (h : ¬ p.1 = k') : dictLookup (p :: l) k' = dictLookup l k' := by
  unfold dictLookup
  rw [List.find?_cons_of_neg _ (by simpa using h)]

theorem dictLookup_map_overwrite_self {α : Type} (k : String) (v : α) :
    ∀ d : List (String × α), d.any (fun p => p.1 = k) = true →
      dictLookup (d.map (fun p => if p.1 = k then (k, v) else p)) k = some v := by
  intro d
  induction d with
  | nil => intro h; simp at h
  | cons p ps ih =>
    intro h
    by_cases hp : p.1 = k
    · simp only [List.map_cons, if_pos hp]
      exact dictLookup_cons_of_pos k (k, v) _ rfl
    · simp only [List.any_cons, Bool.or_eq_true, decide_eq_true_eq] at h
      have hps : ps.any (fun p => p.1 = k) = true := by
        rcases h with h | h
        · exact absurd h hp
        · exact h
      simp only [List.map_cons, if_neg hp]
      rw [dictLookup_cons_of_neg k p _ hp]
      exact ih hps

theorem dictLookup_map_overwrite_ne {α : Type} (k k' : String) (v : α) (hne : k' ≠ k) :
    ∀ d : List (String × α),
      dictLookup (d.map (fun p => if p.1 = k then (k, v) else p)) k' = dictLookup d k' := by
  intro d
  induction d with
  | nil => rfl
  | cons p ps ih =>
    by_cases hp : p.1 = k
    · have h1 : ¬ ((k, v).1 = k') := fun hk => hne hk.symm
      have h2 : ¬ (p.1 = k') := fun hk => hne ((hp ▸ hk : k = k')).symm
      simp only [List.map_cons, if_pos hp]
      rw [dictLookup_cons_of_neg k' (k, v) _ h1, dictLookup_cons_of_neg k' p ps h2]
      exact ih
    · by_cases hp' : p.1 = k'
      · simp only [List.map_cons, if_neg hp]
        rw [dictLookup_cons_of_pos k' p _ hp', dictLookup_cons_of_pos k' p ps hp']
      · simp only [List.map_cons, if_neg hp]
        rw [dictLookup_cons_of_neg k' p _ hp', dictLookup_cons_of_neg k' p ps hp']
        exact ih

theorem dictLookup_append_single_self {α : Type} (k : String) (v : α) :
    ∀ d : List (String × α), d.any (fun p => p.1 = k) = false →
      dictLookup (d ++ [(k, v)]) k = some v := by
  intro d
  induction d with
  | nil => intro _; exact dictLookup_cons_of_pos k (k, v) [] rfl
  | cons p ps ih =>
    intro h
    rw [List.any_cons, Bool.or_eq_false_iff] at h
    rw [List.cons_append, dictLookup_cons_of_neg k p _ (of_decide_eq_false h.1)]
    exact ih h.2

theorem dictLookup_append_single_ne {α : Type} (k k' : String) (v : α) (hne : k' ≠ k) :
    ∀ d : List (String × α), dictLookup (d ++ [(k, v)]) k' = dictLookup d k' := by
  intro d
  induction d with
  | nil =>
    have h1 : ¬ ((k, v).1 = k') := fun hk => hne hk.symm
    rw [List.nil_append, dictLookup_cons_of_neg k' (k, v) [] h1]
  | cons p ps ih =>
    by_cases hp : p.1 = k'
    · rw [List.cons_append, dictLookup_cons_of_pos k' p _ hp, dictLookup_cons_of_pos k' p ps hp]
    · rw [List.cons_append, dictLookup_cons_of_neg k' p _ hp, dictLookup_cons_of_neg k' p ps hp]
      exact ih

theorem dictLookup_dictSet_self {α : Type} (d : List (String × α)) (k : String) (v : α) :
    dictLookup (dictSet d k v) k = some v := by
  unfold dictSet
  by_cases h : d.any (fun p => p.1 = k)
  · rw [if_pos h]; exact dictLookup_map_overwrite_self k v d h
  · rw [if_neg h]
    exact dictLookup_append_single_self k v d (Bool.eq_false_iff.mpr h)

theorem dictLookup_dictSet_ne {α : Type} (d : List (String × α)) (k k' : String) (v : α)
    (hne : k' ≠ k) : dictLookup (dictSet d k v) k' = dictLookup d k' := by
  unfold dictSet
  by_cases h : d.any (fun p => p.1 = k)
  · rw [if_pos h]; exact dictLookup_map_overwrite_ne k k' v hne d
  · rw [if_neg h]; exact dictLookup_append_single_ne k k' v hne d

/-- Membership of a key yields a successful lookup. -/
theorem dictLookup_isSome_of_mem {α : Type} (d : List (String × α)) (k : String)
    (h : k ∈ d.map Prod.fst) : ∃ v, dictLookup d k = some v := by
  induction d with
  | nil => simp at h
  | cons p ps ih =>
    simp only [List.map_cons, List.mem_cons] at h
    unfold dictLookup
    by_cases hp : p.1 = k
    · exact ⟨p.2, by simp [List.find?, hp]⟩
    · have hk : k ∈ ps.map Prod.fst := by
        rcases h with h | h
        · exact absurd h.symm hp
        · exact h
      simp only [List.find?]
      rw [show (decide (p.1 = k)) = false from decide_eq_false hp]
      exact ih hk

/-- Values in the job `configs` dictionary: either a plain string or a
list of strings (the two shapes `filter_cmd_config` distinguishes). -/
inductive CfgVal where
  | str : String → CfgVal
  | list : List String → CfgVal
deriving DecidableEq, Repr

/-- A command/overwrite config dictionary. -/
abbrev CmdConfig := List (String × CfgVal)

/-- One job record of the `jobs` mapping of `trigger_config.json`.
A key that is absent from the Python dict is modelled as `none`
(every use in this module reads keys through `dict.get`, for which an
absent key and a `None` value behave identically; `_validate_job_config`
tests key presence, modelled as `isSome`). -/
structure JobConfig where
  enable : Option Bool := none
  topic : Option String := none
  platform_build : Option String := none
  interval_minutes : Option Nat := none
  cmd : Option String := none
  configs : Option CmdConfig := none
  amount : Option Nat := none
deriving DecidableEq

/-- `TasksTrigger._validate_job_config` (tasksTrigger.py:149-164):
required keys `topic`, `platform_build`, `cmd` must all be present. -/
def _validate_job_config (job_config : JobConfig) : Bool :=
  job_config.topic.isSome && job_config.platform_build.isSome && job_config.cmd.isSome

/-- Python `set.add` on a duplicate-free-list model of a set. -/
def setAdd (s : List String) (x : String) : List String :=
  if x ∈ s then s else s ++ [x]

/-- `TasksTrigger.get_enabled_platform_list_from_trigger_jobs_config`
(tasksTrigger.py:575-595).  A Python `set` is modelled as a
duplicate-free list; `list(set)` has unspecified order, and no claim
depends on the order.  The truthiness test `if enable and platform_build`
drops a missing (`none`) and an empty-string platform value. -/
def get_enabled_platform_list_from_trigger_jobs_config
    (config_dict_obj : List (String × JobConfig)) : List String :=
  config_dict_obj.foldl
    (fun acc j =>
      match j.2.platform_build with
      | some pb => if j.2.enable.getD false && !(pb = "") then setAdd acc pb else acc
      | none => acc)
    (setAdd [] "win64")

/-- Fixed id of the operational-message listener timer
(`MGT_ID` in `TasksTrigger.run`, tasksTrigger.py:661). -/
def MGT_ID : String := "trigger_mgt_listener"

/-- The ids of all timers registered by `TasksTrigger.run`
(tasksTrigger.py:652-748): the mgt listener, one backfill-query timer
per enabled platform, and one trigger timer per job whose `enable` is
truthy.  Note the source only logs when `_validate_job_config` fails and
then falls through: the validation result does not guard `add_job`. -/
def run_timer_ids (jobs_config : List (String × JobConfig)) : List String :=
  [MGT_ID]
    ++ (get_enabled_platform_list_from_trigger_jobs_config jobs_config).map
        (fun p => "query_backfill_table_" ++ p)
    ++ (jobs_config.filter (fun j => j.2.enable.getD false)).map (fun j => j.1)

/-- Python `max` step on strings: `sorted(...)` is ascending, so its last
element is the maximum; the fold below computes that maximum. -/
def pyMax2 (a b : String) : String := if a ≤ b then b else a

/-- Models `sorted(keys)[-1]` on a nonempty list of keys (the code only
evaluates it after establishing nonemptiness): the lexicographically
greatest element, `none` on the empty list. -/
def pySortedLast : List String → Option String
  | [] => none
  | x :: xs => some (xs.foldl pyMax2 x)

theorem foldl_pyMax2_mem (xs : List String) : ∀ x : String, xs.foldl pyMax2 x = x ∨ xs.foldl pyMax2 x ∈ xs := by
  induction xs with
  | nil => intro x; exact Or.inl rfl
  | cons y ys ih =>
    intro x
    rcases ih (pyMax2 x y) with h | h
    · rw [List.foldl_cons, h]
      unfold pyMax2
      by_cases hxy : x ≤ y
      · rw [if_pos hxy]; exact Or.inr (List.mem_cons_self y ys)
      · rw [if_neg hxy]; exact Or.inl rfl
    · exact Or.inr (List.mem_cons_of_mem y h)

theorem le_foldl_pyMax2 (xs : List String) :
    ∀ x : String, x ≤ xs.foldl pyMax2 x ∧ ∀ k ∈ xs, k ≤ xs.foldl pyMax2 x := by
  induction xs with
  | nil => intro x; exact ⟨le_refl x, by simp⟩
  | cons y ys ih =>
    intro x
    have hx : x ≤ pyMax2 x y := by
      unfold pyMax2
      by_cases hxy : x ≤ y
      · rw [if_pos hxy]; exact hxy
      · rw [if_neg hxy]
    have hy : y ≤ pyMax2 x y := by
      unfold pyMax2
      by_cases hxy : x ≤ y
      · rw [if_pos hxy]
      · rw [if_neg hxy]; exact le_of_not_le hxy
    rcases ih (pyMax2 x y) with ⟨h1, h2⟩
    rw [List.foldl_cons]
    refine ⟨le_trans hx h1, ?_⟩
    intro k hk
    rcases List.mem_cons.mp hk with h | h
    · rw [h]; exact le_trans hy h1
    · exact h2 k h

theorem pySortedLast_spec (l : List String) (m : String) (h : pySortedLast l = some m) :
    m ∈ l ∧ ∀ k ∈ l, k ≤ m := by
  match l with
  | [] => simp [pySortedLast] at h
  | x :: xs =>
    unfold pySortedLast at h
    have hm : xs.foldl pyMax2 x = m := by simpa using h
    constructor
    · rw [← hm]
      rcases foldl_pyMax2_mem xs x with h' | h'
      · rw [h']; exact List.mem_cons_self x xs
      · exact List.mem_cons_of_mem x h'
    · intro k hk
      rw [← hm]
      rcases List.mem_cons.mp hk with h' | h'
      · rw [h']; exact (le_foldl_pyMax2 xs x).1
      · exact (le_foldl_pyMax2 xs x).2 k h'

/-- `TasksTrigger.ARCHIVE_ROOT_URL`. -/
def ARCHIVE_ROOT_URL : String := "https://archive.mozilla.org"

/-- Helper for `pySplit`: accumulates the current field (in reverse)
while walking the characters. -/
def pySplitAux (sep : Char) : List Char → List Char → List String
  | [], acc => [String.mk acc.reverse]
  | c :: cs, acc =>
    if c = sep then String.mk acc.reverse :: pySplitAux sep cs []
    else pySplitAux sep cs (c :: acc)

/-- Python `str.split(sep)` for a one-character separator (the only form
this module uses: `split('/')` and `split(',')`): split at every
occurrence of `sep`; the empty string yields `[""]`. -/
def pySplit (s : String) (sep : Char) : List String := pySplitAux sep s.data []

/-- Python `str.endswith(suffix)`. -/
def pyEndsWith (s suffix : String) : Bool := suffix.data.isSuffixOf s.data

/-- The filename of an archive href link: `href_link.split('/')[-1]`
(tasksTrigger.py:181). -/
def hrefFilename (href_link : String) : String := (pySplit href_link '/').getLastD ""

/-- `TasksTrigger.get_all_latest_files_for_md5` (tasksTrigger.py:166-188).
The HTTP listing is a collaborator; its outcome is the parameter:
`none` models a network error or a non-200 status (both produce an empty
dict after logging), `some hrefs` models the href links extracted line by
line by the regex.  The dict maps each link's filename to the link. -/
def get_all_latest_files_for_md5 (listing : Option (List String)) :
    List (String × String) :=
  match listing with
  | none => []
  | some hrefs => hrefs.foldl (fun d href => dictSet d (hrefFilename href) href) []

/-- `urlparse.urljoin` is a Python-stdlib collaborator; it resolves an
href against the archive root.  It is modelled as concatenation: no claim
depends on URL syntax, only on which resource is identified. -/
def urljoin (base url : String) : String := base ++ url

/-- `TasksTrigger.get_latest_info_json_url_for_md5` (tasksTrigger.py:190-213):
filter the listing to filenames ending in `.{platform}.json`, pick the
lexicographically greatest such filename (`sorted(keys)[-1]`), and return
its URL; `None` (after logging) when nothing matches. -/
def get_latest_info_json_url_for_md5 (platform : String) (listing : Option (List String)) :
    Option String :=
  let match_endswith_string := "." ++ platform ++ "." ++ "json"
  let all_files := get_all_latest_files_for_md5 listing
  let matched_files := all_files.filter (fun kv => pyEndsWith kv.1 match_endswith_string)
  match pySortedLast (matched_files.map Prod.fst) with
  | none => none
  | some matched_filename =>
    (dictLookup matched_files matched_filename).map (fun ret_url => urljoin ARCHIVE_ROOT_URL ret_url)

/-- The portion of the resource's bytes that `get_remote_md5` feeds to the
hash (tasksTrigger.py:226-232): the loop reads 1024-byte chunks and hashes
a chunk only while the running counter stays below `max_size = 1024*1024`,
so exactly the first `1023 * 1024` bytes (or the whole resource when it is
shorter) are hashed.  Content is modelled as a string of bytes. -/
def hashedPortion (content : String) : String :=
  if content.length ≤ 1023 * 1024 then content else { data := content.data.take (1023 * 1024) }

/-- `TasksTrigger.get_remote_md5` (tasksTrigger.py:215-233).
Collaborators: `md5f` models `hashlib.md5(...).hexdigest()` (an arbitrary
digest function — no claim depends on the internals of MD5), and `net`
models `urllib2.urlopen(url).read(...)`, `none` being a raised network
error.  A `none` URL models the unchecked `get_latest_info_json_url_for_md5`
failure: `urlopen(None)` raises.  `Except.error` models the exception
propagating out of `get_remote_md5`, which has no handler. -/
def get_remote_md5 (md5f : String → String) (net : String → Option String)
    (url : Option String) : Except Unit String :=
  match url with
  | none => Except.error ()
  | some u =>
    match net u with
    | none => Except.error ()
    | some content => Except.ok (md5f (hashedPortion content))

/-- `TasksTrigger.get_latest_info_json_md5_hash` (tasksTrigger.py:235-244). -/
def get_latest_info_json_md5_hash (md5f : String → String) (net : String → Option String)
    (platform : String) (listing : Option (List String)) : Except Unit String :=
  get_remote_md5 md5f net (get_latest_info_json_url_for_md5 platform listing)

/-- The on-disk signature folder (`.md5` or `.timestamp`): one file per
job name holding one string. -/
abbrev SigStore := List (String × String)

/-- `TasksTrigger.check_latest_info_json_md5_changed` (tasksTrigger.py:246-287).
`folderOk` is the outcome of `check_folder` on the `.md5` folder.  The
result pairs the returned value (or the exception escaping from the
unprotected fetch, which leaves the store untouched) with the store after
the call. -/
def check_latest_info_json_md5_changed (md5f : String → String)
    (net : String → Option String) (job_name platform : String)
    (listing : Option (List String)) (folderOk : Bool) (store : SigStore) :
    Except Unit Bool × SigStore :=
  if !folderOk then (Except.ok false, store)
  else
    match get_latest_info_json_md5_hash md5f net platform listing with
    | Except.error e => (Except.error e, store)
    | Except.ok new_hash =>
      match dictLookup store job_name with
      | some origin_hash =>
        if origin_hash = new_hash then (Except.ok false, store)
        else (Except.ok true, dictSet store job_name new_hash)
      | none => (Except.ok true, dictSet store job_name new_hash)

/-- Modelled from the spec: `lib.modules.build_information.BuildInformation`
is not under `src/`; per the spec, BuildInfo carries an archive URL and a
revision (plus the timestamp that indexes it in the backfill table). -/
structure BuildInformation where
  archive_url : String
  revision : String
deriving DecidableEq, Repr

/-- `TasksTrigger.check_latest_timestamp` (tasksTrigger.py:405-451).
`table` is the backfill table returned by the external
`GenerateBackfillTableHelper` collaborator (an empty list models both a
falsy `None` and `{}` result); `folderOk` is the outcome of `check_folder`
on the `.timestamp` folder.  The `BuildInformation(...)` constructor
applied to the table entry is modelled as the identity, the table values
being already-structured `BuildInformation` records. -/
def check_latest_timestamp (job_name : String)
    (table : List (String × BuildInformation)) (folderOk : Bool) (store : SigStore) :
    (Bool × Option BuildInformation) × SigStore :=
  match pySortedLast (table.map Prod.fst) with
  | none => ((false, none), store)
  | some latest_timestamp =>
    if !folderOk then ((false, none), store)
    else
      match dictLookup store job_name with
      | some original_timestamp =>
        if original_timestamp = latest_timestamp then ((false, none), store)
        else ((true, dictLookup table latest_timestamp), dictSet store job_name latest_timestamp)
      | none => ((true, dictLookup table latest_timestamp), dictSet store job_name latest_timestamp)

/-- Decimal rendering of a natural number, modelling the
`'{idx}'.format(idx=idx + 1)` conversion used to build task uids
(tasksTrigger.py:556): the base-10 digits, most significant first. -/
def natToDecString (n : Nat) : String :=
  if n = 0 then "0" else List.asString (((Nat.digits 10 n).map Nat.digitChar).reverse)

theorem digitChar_inj_lt :
    ∀ x < 10, ∀ y < 10, Nat.digitChar x = Nat.digitChar y → x = y := by decide

theorem map_digitChar_cancel :
    ∀ (l1 l2 : List Nat), (∀ x ∈ l1, x < 10) → (∀ x ∈ l2, x < 10) →
      l1.map Nat.digitChar = l2.map Nat.digitChar → l1 = l2 := by
  intro l1
  induction l1 with
  | nil =>
    intro l2 _ _ h
    cases l2 with
    | nil => rfl
    | cons y ys => simp at h
  | cons x xs ih =>
    intro l2 h1 h2 h
    cases l2 with
    | nil => simp at h
    | cons y ys =>
      simp only [List.map_cons, List.cons.injEq] at h
      have hx := h1 x (List.mem_cons_self x xs)
      have hy := h2 y (List.mem_cons_self y ys)
      have hxy : x = y := digitChar_inj_lt x hx y hy h.1
      have hrest : xs = ys :=
        ih ys (fun z hz => h1 z (List.mem_cons_of_mem x hz))
          (fun z hz => h2 z (List.mem_cons_of_mem y hz)) h.2
      rw [hxy, hrest]

theorem natToDecString_inj_pos {a b : Nat} (ha : a ≠ 0) (hb : b ≠ 0)
    (h : natToDecString a = natToDecString b) : a = b := by
  unfold natToDecString at h
  rw [if_neg ha, if_neg hb] at h
  have hdata : (((Nat.digits 10 a).map Nat.digitChar).reverse : List Char)
      = ((Nat.digits 10 b).map Nat.digitChar).reverse := congrArg String.data h
  have hmap : (Nat.digits 10 a).map Nat.digitChar = (Nat.digits 10 b).map Nat.digitChar :=
    List.reverse_injective hdata
  have hdig : Nat.digits 10 a = Nat.digits 10 b :=
    map_digitChar_cancel _ _
      (fun x hx => Nat.digits_lt_base (by norm_num) hx)
      (fun x hx => Nat.digits_lt_base (by norm_num) hx) hmap
  exact Nat.digits_inj_iff.mp hdig

/-- The uid of the `idx`-th pushed MetaTask (0-based loop index), built in
`job_pushing_meta_task` (tasksTrigger.py:533-556):
`'{time}.{job}'` extended with `.` and the 1-based index. -/
def taskUid (now_string job_name : String) (idx : Nat) : String :=
  now_string ++ "." ++ job_name ++ "." ++ natToDecString (idx + 1)

theorem taskUid_inj (now_string job_name : String) {i j : Nat}
    (h : taskUid now_string job_name i = taskUid now_string job_name j) : i = j := by
  unfold taskUid at h
  have hdata := congrArg String.data h
  simp only [String.data_append] at hdata
  have h1 := List.append_cancel_left hdata
  have hstr : natToDecString (i + 1) = natToDecString (j + 1) := by
    cases hi : natToDecString (i + 1) with
    | mk di =>
      cases hj : natToDecString (j + 1) with
      | mk dj =>
        rw [hi, hj] at h1
        exact congrArg String.mk (by simpa using h1)
  have := natToDecString_inj_pos (Nat.succ_ne_zero i) (Nat.succ_ne_zero j) hstr
  omega

theorem taskUid_list_nodup (now_string job_name : String) (amount : Nat) :
    ((List.range amount).map (taskUid now_string job_name)).Nodup := by
  refine List.Nodup.map_on ?_ (List.nodup_range amount)
  intro i _ j _ h
  exact taskUid_inj now_string job_name h

/-- `TasksTrigger.handle_specify_commands` (tasksTrigger.py:476-490):
commands that need artifact provenance get the build's archive URL and
revision injected into the config; all other commands leave it alone. -/
def handle_specify_commands (cmd_name : String) (cmd_configs : CmdConfig)
    (build_info : BuildInformation) : CmdConfig :=
  if cmd_name = "run-hasal-on-specify-nightly" ∨ cmd_name = "download-specify-nightly" then
    dictSet (dictSet cmd_configs "DOWNLOAD_PKG_DIR_URL" (CfgVal.str build_info.archive_url))
      "DOWNLOAD_REVISION" (CfgVal.str build_info.revision)
  else cmd_configs

/-- Modelled from the spec: `CommonUtil.mask_credential_value` is not
under `src/`; per the spec, the masking pass replaces the values under
known-sensitive keys with a fixed redaction marker.  The set of sensitive
keys is the parameter `sensitive`. -/
def mask_credential_value (sensitive : List String) (cfg : CmdConfig) : CmdConfig :=
  cfg.map (fun kv => if kv.1 ∈ sensitive then (kv.1, CfgVal.str "<REDACTED>") else kv)

/-- The conversion applied to the value under
`OVERWRITE_HASAL_SUITE_CASE_LIST` (tasksTrigger.py:465-468): a list is
kept as is, a string is split on commas. -/
def toCaseList : CfgVal → CfgVal
  | CfgVal.list l => CfgVal.list l
  | CfgVal.str s => CfgVal.list (pySplit s ',')

/-- The body of the loop in `filter_cmd_config` (tasksTrigger.py:461-473).
Python 2's `.items()` snapshots the pairs before the loop, so the loop
runs once per binding of the ORIGINAL config with the original value `kv`,
while `ret_config` names the evolving dict: the case-list conversion
writes into the evolving dict, and the whole dict is then re-masked
(the masking statements sit inside the loop in the source). -/
def filter_cmd_config_step (sensitive : List String) (ret_config : CmdConfig)
    (kv : String × CfgVal) : CmdConfig :=
  mask_credential_value sensitive
    (if kv.1 = "OVERWRITE_HASAL_SUITE_CASE_LIST" then dictSet ret_config kv.1 (toCaseList kv.2)
     else ret_config)

/-- `TasksTrigger.filter_cmd_config` (tasksTrigger.py:453-474). -/
def filter_cmd_config (sensitive : List String) (input_config : CmdConfig) : CmdConfig :=
  input_config.foldl (filter_cmd_config_step sensitive) input_config

/-- The status-file tag used by the trigger
(`StatusFileCreator.STATUS_TAG_PULSE_TRIGGER`).  Modelled from the spec:
`StatusFileCreator` is not under `src/`; the tag is a fixed string whose
exact value no claim depends on. -/
def STATUS_TAG_PULSE_TRIGGER : String := "pulse-trigger"

/-- The content dictionary written with the completed (900) status record
(tasksTrigger.py:564-572). -/
structure StatusContent where
  job_name : String
  platform : String
  topic : String
  amount : Nat
  cmd : String
  cmd_config : CmdConfig
  task_uid_list : List String
deriving DecidableEq

/-- One observable side effect of a dispatch job, in order of occurrence.
Modelled from the spec: `StatusFileCreator.create_status_file` (one status
record per call, carrying the tag, the ordering marker and the optional
content) and `HasalPulsePublisher.push_meta_task` (one published message
per call, carrying topic, command name, config and uid) are collaborators
not under `src/`; each call is recorded as one trace event. -/
inductive TraceEvent where
  | status : String → String → Nat → Option StatusContent → TraceEvent
  | publish : String → String → CmdConfig → String → TraceEvent
deriving DecidableEq

/-- The uids carried by the publish events of a trace. -/
def publishedUids (trace : List TraceEvent) : List String :=
  trace.filterMap (fun e =>
    match e with
    | TraceEvent.publish _ _ _ uid => some uid
    | TraceEvent.status _ _ _ _ => none)

/-- State threaded through `job_pushing_meta_task`: the `.timestamp`
signature store and the trace of publisher/status-file effects. -/
structure TriggerState where
  tsStore : SigStore
  trace : List TraceEvent
deriving DecidableEq

/-- State threaded through `job_pushing_meta_task_md5`: the `.md5`
signature store and the trace of publisher effects. -/
structure Md5State where
  md5Store : SigStore
  trace : List TraceEvent
deriving DecidableEq

/-- The outgoing config of one dispatch (tasksTrigger.py:526): the
overwrite config, enriched by `handle_specify_commands` with the build
info the change check returned.  The `none` arm mirrors the Python call
with `build_info = None`, which `job_pushing_meta_task` never reaches on
a detected change (`check_latest_timestamp` returns a build record
whenever it reports a change, the latest key being in the table). -/
def dispatchedConfig (cmd_name : String) (overwrite_cmd_config : CmdConfig)
    (build_info : Option BuildInformation) : CmdConfig :=
  match build_info with
  | some b => handle_specify_commands cmd_name overwrite_cmd_config b
  | none => overwrite_cmd_config

/-- `TasksTrigger.job_pushing_meta_task` (tasksTrigger.py:492-573).
Inputs that are pure I/O context in the source are explicit parameters:
`table` (the backfill table the check fetches), `folderOk` (signature
folder preparation), `now_string` (the formatted `datetime.now()`),
`job_id` (the run folder created by `StatusFileCreator.create_job_id_folder`)
and `sensitive` (the key set of the masking collaborator).  The Pulse
credentials, the queue-existence check (which only logs) and the
publisher construction have no observable effect in the model and are
omitted.  On a detected change the job records a 100 status, enriches the
config for provenance commands, publishes `amount` uid-indexed messages,
and records a 900 status carrying the masked config and the uid list. -/
def job_pushing_meta_task (job_name topic : String) (amount : Nat)
    (platform_build cmd_name : String) (overwrite_cmd_config : CmdConfig)
    (table : List (String × BuildInformation)) (folderOk : Bool)
    (now_string job_id : String) (sensitive : List String)
    (st : TriggerState) : TriggerState :=
  let r := check_latest_timestamp job_name table folderOk st.tsStore
  if r.1.1 then
    let cfg := dispatchedConfig cmd_name overwrite_cmd_config r.1.2
    let uid_list := (List.range amount).map (taskUid now_string job_name)
    let content : StatusContent :=
      { job_name := job_name, platform := platform_build, topic := topic, amount := amount,
        cmd := cmd_name, cmd_config := filter_cmd_config sensitive cfg,
        task_uid_list := uid_list }
    { tsStore := r.2,
      trace := st.trace
        ++ TraceEvent.status job_id STATUS_TAG_PULSE_TRIGGER 100 none
          :: (uid_list.map (fun uid => TraceEvent.publish topic cmd_name cfg uid)
            ++ [TraceEvent.status job_id STATUS_TAG_PULSE_TRIGGER 900 (some content)]) }
  else
    { st with tsStore := r.2 }

/-- `TasksTrigger.job_pushing_meta_task_md5` (tasksTrigger.py:318-375),
the MD5-based variant of the dispatch job (no status records, same
uid-indexed fan-out).  The second component is `Except.error ()` when the
unprotected fetch inside `check_latest_info_json_md5_changed` raises, in
which case the exception propagates out of the job to the scheduler's
exception listener. -/
def job_pushing_meta_task_md5 (md5f : String → String) (net : String → Option String)
    (job_name topic : String) (amount : Nat) (platform_build cmd_name : String)
    (overwrite_cmd_config : CmdConfig) (listing : Option (List String)) (folderOk : Bool)
    (now_string : String) (st : Md5State) : Md5State × Except Unit Unit :=
  let r := check_latest_info_json_md5_changed md5f net job_name platform_build listing
    folderOk st.md5Store
  match r.1 with
  | Except.error e => ({ st with md5Store := r.2 }, Except.error e)
  | Except.ok changed =>
    if changed then
      let uid_list := (List.range amount).map (taskUid now_string job_name)
      ({ md5Store := r.2,
         trace := st.trace
           ++ uid_list.map (fun uid =>
              TraceEvent.publish topic cmd_name overwrite_cmd_config uid) },
       Except.ok ())
    else ({ st with md5Store := r.2 }, Except.ok ())

theorem setAdd_mem (s : List String) (x y : String) : y ∈ setAdd s x ↔ y ∈ s ∨ y = x := by
  unfold setAdd
  by_cases h : x ∈ s
  · rw [if_pos h]
    constructor
    · exact fun h' => Or.inl h'
    · rintro (h' | rfl)
      · exact h'
      · exact h
  · rw [if_neg h]
    simp [List.mem_append]

theorem setAdd_nodup (s : List String) (x : String) (h : s.Nodup) : (setAdd s x).Nodup := by
  unfold setAdd
  by_cases hx : x ∈ s
  · rw [if_pos hx]; exact h
  · rw [if_neg hx]
    refine List.Nodup.append h (List.nodup_singleton x) ?_
    intro y hy hyx
    rw [List.mem_singleton] at hyx
    exact hx (hyx ▸ hy)

theorem enabled_platform_fold_mem (jobs : List (String × JobConfig)) :
    ∀ (acc : List String) (x : String),
      (x ∈ jobs.foldl
        (fun acc j =>
          match j.2.platform_build with
          | some pb => if j.2.enable.getD false && !(pb = "") then setAdd acc pb else acc
          | none => acc) acc)
      ↔ x ∈ acc ∨ ∃ p ∈ jobs, p.2.enable.getD false = true ∧ p.2.platform_build = some x ∧ x ≠ "" := by
  induction jobs with
  | nil => intro acc x; simp
  | cons j js ih =>
    intro acc x
    rw [List.foldl_cons, ih]
    cases hpb : j.2.platform_build with
    | none =>
      simp only [hpb]
      constructor
      · rintro (h | ⟨p, hp, h1, h2, h3⟩)
        · exact Or.inl h
        · exact Or.inr ⟨p, List.mem_cons_of_mem j hp, h1, h2, h3⟩
      · rintro (h | ⟨p, hp, h1, h2, h3⟩)
        · exact Or.inl h
        · rcases List.mem_cons.mp hp with rfl | hp'
          · rw [hpb] at h2; exact absurd h2 (by simp)
          · exact Or.inr ⟨p, hp', h1, h2, h3⟩
    | some pb =>
      simp only [hpb]
      by_cases hc : (j.2.enable.getD false && !(pb = "")) = true
      · rw [if_pos hc]
        rw [Bool.and_eq_true] at hc
        have hen : j.2.enable.getD false = true := hc.1
        have hpbne : pb ≠ "" := by simpa using hc.2
        rw [setAdd_mem]
        constructor
        · rintro ((h | rfl) | ⟨p, hp, h1, h2, h3⟩)
          · exact Or.inl h
          · exact Or.inr ⟨j, List.mem_cons_self j js, hen, hpb, hpbne⟩
          · exact Or.inr ⟨p, List.mem_cons_of_mem j hp, h1, h2, h3⟩
        · rintro (h | ⟨p, hp, h1, h2, h3⟩)
          · exact Or.inl (Or.inl h)
          · rcases List.mem_cons.mp hp with rfl | hp'
            · rw [hpb] at h2
              exact Or.inl (Or.inr (Option.some.inj h2).symm)
            · exact Or.inr ⟨p, hp', h1, h2, h3⟩
      · rw [if_neg hc]
        constructor
        · rintro (h | ⟨p, hp, h1, h2, h3⟩)
          · exact Or.inl h
          · exact Or.inr ⟨p, List.mem_cons_of_mem j hp, h1, h2, h3⟩
        · rintro (h | ⟨p, hp, h1, h2, h3⟩)
          · exact Or.inl h
          · rcases List.mem_cons.mp hp with rfl | hp'
            · rw [hpb] at h2
              have hx : pb = x := Option.some.inj h2
              exact absurd (by rw [h1, hx]; simpa using h3) hc
            · exact Or.inr ⟨p, hp', h1, h2, h3⟩

theorem enabled_platform_fold_nodup (jobs : List (String × JobConfig)) :
    ∀ acc : List String, acc.Nodup →
      (jobs.foldl
        (fun acc j =>
          match j.2.platform_build with
          | some pb => if j.2.enable.getD false && !(pb = "") then setAdd acc pb else acc
          | none => acc) acc).Nodup := by
  induction jobs with
  | nil => intro acc h; simpa using h
  | cons j js ih =>
    intro acc h
    rw [List.foldl_cons]
    apply ih
    cases hpb : j.2.platform_build with
    | none => exact h
    | some pb =>
      by_cases hc : (j.2.enable.getD false && !(pb = "")) = true
      · simp only [hpb, if_pos hc]
        exact setAdd_nodup acc pb h
      · simp only [hpb, if_neg hc]
        exact h

/-- C10: for every jobs configuration the enabled-platform list computed
for metadata-refresh scheduling contains `win64` and is duplicate-free,
and its members are exactly `win64` together with the NON-EMPTY
`platform_build` values of enabled jobs.  (Amended from the original
claim: the Python truthiness test `if enable and platform_build` also
drops an enabled job whose `platform_build` is the empty string, so an
empty-string platform value never reaches the list; see the
counterexample.) -/
theorem C10_enabled_platforms (jobs_config : List (String × JobConfig)) :
    "win64" ∈ get_enabled_platform_list_from_trigger_jobs_config jobs_config
    ∧ (get_enabled_platform_list_from_trigger_jobs_config jobs_config).Nodup
    ∧ ∀ x : String,
      x ∈ get_enabled_platform_list_from_trigger_jobs_config jobs_config
      ↔ (x = "win64"
          ∨ ∃ p ∈ jobs_config,
              p.2.enable.getD false = true ∧ p.2.platform_build = some x ∧ x ≠ "") := by
  unfold get_enabled_platform_list_from_trigger_jobs_config
  have hinit : setAdd [] "win64" = ["win64"] := rfl
  refine ⟨?_, ?_, ?_⟩
  · rw [enabled_platform_fold_mem]
    exact Or.inl (by rw [hinit]; exact List.mem_singleton.mpr rfl)
  · exact enabled_platform_fold_nodup jobs_config _ (by rw [hinit]; exact List.nodup_singleton _)
  · intro x
    rw [enabled_platform_fold_mem, hinit, List.mem_singleton]

/-- C10 counterexample: the original claim says the returned list is
exactly the set of `platform_build` values of enabled jobs unioned with
`win64`; here an enabled job has the `platform_build` value `""`, yet
`""` is not in the returned list (the Python truthiness test drops it). -/
theorem C10_counterexample :
    (({ enable := some true, platform_build := some "" } : JobConfig).enable.getD false = true
      ∧ ({ enable := some true, platform_build := some "" } : JobConfig).platform_build = some "")
    ∧ "" ∉ get_enabled_platform_list_from_trigger_jobs_config
        [("job_empty_platform", { enable := some true, platform_build := some "" })] := by
  decide

/-- C1: the claim says a job definition missing a required key
(`topic`, `platform_build`, `cmd`) is logged as invalid and never
registered with the scheduler.  The code evaluation below shows the
opposite: `_validate_job_config` does reject the job, but `run()` only
logs on validation failure and falls through, so the enabled job `jobA`
— which has none of the required keys — still gets a scheduler timer
whose id is the job's name. -/
theorem C1_invalid_job_still_registered :
    _validate_job_config { enable := some true } = false
    ∧ "jobA" ∈ run_timer_ids [("jobA", { enable := some true })] := by
  decide

/-- C8: commands that require artifact provenance
(`run-hasal-on-specify-nightly`, `download-specify-nightly`) get the
build's archive URL injected under `DOWNLOAD_PKG_DIR_URL` and its
revision under `DOWNLOAD_REVISION`; every other command passes the
overwrite config through unmodified. -/
theorem C8_command_enrichment (cmd_name : String) (cmd_configs : CmdConfig)
    (build_info : BuildInformation) :
    ((cmd_name = "run-hasal-on-specify-nightly" ∨ cmd_name = "download-specify-nightly") →
      handle_specify_commands cmd_name cmd_configs build_info
        = dictSet (dictSet cmd_configs "DOWNLOAD_PKG_DIR_URL" (CfgVal.str build_info.archive_url))
            "DOWNLOAD_REVISION" (CfgVal.str build_info.revision)
      ∧ dictLookup (handle_specify_commands cmd_name cmd_configs build_info) "DOWNLOAD_PKG_DIR_URL"
          = some (CfgVal.str build_info.archive_url)
      ∧ dictLookup (handle_specify_commands cmd_name cmd_configs build_info) "DOWNLOAD_REVISION"
          = some (CfgVal.str build_info.revision))
    ∧ (¬(cmd_name = "run-hasal-on-specify-nightly" ∨ cmd_name = "download-specify-nightly") →
      handle_specify_commands cmd_name cmd_configs build_info = cmd_configs) := by
  constructor
  · intro h
    have hd : handle_specify_commands cmd_name cmd_configs build_info
        = dictSet (dictSet cmd_configs "DOWNLOAD_PKG_DIR_URL" (CfgVal.str build_info.archive_url))
            "DOWNLOAD_REVISION" (CfgVal.str build_info.revision) := by
      unfold handle_specify_commands
      rw [if_pos h]
    refine ⟨hd, ?_, ?_⟩
    · rw [hd, dictLookup_dictSet_ne _ _ _ _ (by decide), dictLookup_dictSet_self]
    · rw [hd, dictLookup_dictSet_self]
  · intro h
    unfold handle_specify_commands
    rw [if_neg h]

/-- Witness for C8 at concrete inputs: a provenance command gets the
revision injected, a non-provenance command leaves the config alone. -/
theorem C8_command_enrichment_witness :
    dictLookup (handle_specify_commands "download-specify-nightly"
        [("K", CfgVal.str "v")] ⟨"https://archive/x", "abc123"⟩) "DOWNLOAD_REVISION"
      = some (CfgVal.str "abc123")
    ∧ handle_specify_commands "download-latest-nightly"
        [("K", CfgVal.str "v")] ⟨"https://archive/x", "abc123"⟩
      = [("K", CfgVal.str "v")] :=
  ⟨((C8_command_enrichment "download-specify-nightly" [("K", CfgVal.str "v")]
      ⟨"https://archive/x", "abc123"⟩).1 (Or.inr rfl)).2.2,
   (C8_command_enrichment "download-latest-nightly" [("K", CfgVal.str "v")]
      ⟨"https://archive/x", "abc123"⟩).2 (by decide)⟩

/-- C2: a signature check for a job with no stored record that
successfully obtains a current signature returns changed and persists the
new value, in both the MD5 mode and the timestamp mode; the timestamp
mode additionally returns the `BuildInformation` associated with the
latest (maximal) timestamp of the backfill table. -/
theorem C2_first_check_changes (md5f : String → String) (net : String → Option String)
    (listing : Option (List String)) (platform job_name latest new_hash : String)
    (table : List (String × BuildInformation)) (hashStore tsStore : SigStore) :
    (dictLookup hashStore job_name = none →
      get_latest_info_json_md5_hash md5f net platform listing = Except.ok new_hash →
      check_latest_info_json_md5_changed md5f net job_name platform listing true hashStore
        = (Except.ok true, dictSet hashStore job_name new_hash)
      ∧ dictLookup (dictSet hashStore job_name new_hash) job_name = some new_hash)
    ∧ (dictLookup tsStore job_name = none →
      pySortedLast (table.map Prod.fst) = some latest →
      (∃ b : BuildInformation,
        dictLookup table latest = some b
        ∧ check_latest_timestamp job_name table true tsStore
            = ((true, some b), dictSet tsStore job_name latest))
      ∧ dictLookup (dictSet tsStore job_name latest) job_name = some latest
      ∧ latest ∈ table.map Prod.fst
      ∧ ∀ k ∈ table.map Prod.fst, k ≤ latest) := by
  constructor
  · intro h1 h2
    constructor
    · unfold check_latest_info_json_md5_changed
      rw [h2, h1]
      rfl
    · exact dictLookup_dictSet_self hashStore job_name new_hash
  · intro h1 h2
    have hspec := pySortedLast_spec _ _ h2
    obtain ⟨b, hb⟩ := dictLookup_isSome_of_mem table latest hspec.1
    refine ⟨⟨b, hb, ?_⟩, dictLookup_dictSet_self tsStore job_name latest, hspec.1, hspec.2⟩
    have hred : check_latest_timestamp job_name table true tsStore
        = ((true, dictLookup table latest), dictSet tsStore job_name latest) := by
      unfold check_latest_timestamp
      rw [h1, h2]
      rfl
    rw [hred, hb]

/-- Witness for C2 at concrete inputs: empty stores, a listing with one
matching filename hashing to `deadbeef`, and a two-row backfill table
whose later timestamp carries revision `abc123`. -/
theorem C2_first_check_changes_witness :
    check_latest_info_json_md5_changed (fun _ => "deadbeef") (fun _ => some "payload")
        "jobA" "win64"
        (some ["/pub/firefox/nightly/latest-mozilla-central/firefox-56.0a1.en-US.win64.json"])
        true []
      = (Except.ok true, [("jobA", "deadbeef")])
    ∧ check_latest_timestamp "jobB"
        [("2020-02-02T02:00:00", ⟨"https://archive/u2", "abc123"⟩)] true []
      = ((true, some ⟨"https://archive/u2", "abc123"⟩), [("jobB", "2020-02-02T02:00:00")]) := by
  have h := C2_first_check_changes (fun _ => "deadbeef") (fun _ => some "payload")
    (some ["/pub/firefox/nightly/latest-mozilla-central/firefox-56.0a1.en-US.win64.json"])
    "win64" "jobB" "2020-02-02T02:00:00" "deadbeef"
    [("2020-02-02T02:00:00", ⟨"https://archive/u2", "abc123"⟩)] [] []
  constructor
  · have h1 := (C2_first_check_changes (fun _ => "deadbeef") (fun _ => some "payload")
      (some ["/pub/firefox/nightly/latest-mozilla-central/firefox-56.0a1.en-US.win64.json"])
      "win64" "jobA" "2020-02-02T02:00:00" "deadbeef" [] [] []).1 rfl rfl
    exact h1.1.trans rfl
  · obtain ⟨⟨b, hb, hc⟩, _, _, _⟩ := h.2 rfl rfl
    have hbval : b = (⟨"https://archive/u2", "abc123"⟩ : BuildInformation) := by
      have hsome : some b = some (⟨"https://archive/u2", "abc123"⟩ : BuildInformation) :=
        hb.symm.trans rfl
      exact Option.some.inj hsome
    rw [hbval] at hc
    exact hc.trans rfl

/-- C3: when the stored signature equals the currently fetched one, the
check reports not-changed and leaves the store untouched (both modes),
and the dispatch job is a complete no-op on that tick: no message
published, no status record written, state unchanged. -/
theorem C3_unchanged_noop (md5f : String → String) (net : String → Option String)
    (listing : Option (List String)) (platform job_name latest stored_hash : String)
    (table : List (String × BuildInformation)) (hashStore : SigStore) (st : TriggerState)
    (topic cmd_name now_string job_id : String) (amount : Nat) (overwrite_cmd_config : CmdConfig)
    (sensitive : List String) :
    (dictLookup hashStore job_name = some stored_hash →
      get_latest_info_json_md5_hash md5f net platform listing = Except.ok stored_hash →
      ∀ folderOk : Bool,
        check_latest_info_json_md5_changed md5f net job_name platform listing folderOk hashStore
          = (Except.ok false, hashStore))
    ∧ (dictLookup st.tsStore job_name = some latest →
      pySortedLast (table.map Prod.fst) = some latest →
      ∀ folderOk : Bool,
        check_latest_timestamp job_name table folderOk st.tsStore = ((false, none), st.tsStore)
        ∧ job_pushing_meta_task job_name topic amount platform cmd_name overwrite_cmd_config
            table folderOk now_string job_id sensitive st = st) := by
  constructor
  · intro h1 h2 folderOk
    cases folderOk with
    | false => rfl
    | true =>
      unfold check_latest_info_json_md5_changed
      rw [h2, h1]
      simp only [if_pos rfl]
      rfl
  · intro h1 h2 folderOk
    have hc : check_latest_timestamp job_name table folderOk st.tsStore
        = ((false, none), st.tsStore) := by
      cases folderOk with
      | false =>
        unfold check_latest_timestamp
        rw [h2]
        rfl
      | true =>
        unfold check_latest_timestamp
        rw [h1, h2]
        simp only [if_pos rfl]
        rfl
    refine ⟨hc, ?_⟩
    unfold job_pushing_meta_task
    rw [hc]
    rfl

/-- Witness for C3 at concrete inputs: stored hash and stored timestamp
both match the fetched values, so both checks report not-changed and the
dispatch is the identity on the state. -/
theorem C3_unchanged_noop_witness :
    check_latest_info_json_md5_changed (fun _ => "deadbeef") (fun _ => some "payload")
        "jobA" "win64"
        (some ["/pub/firefox/nightly/latest-mozilla-central/firefox-56.0a1.en-US.win64.json"])
        true [("jobA", "deadbeef")]
      = (Except.ok false, [("jobA", "deadbeef")])
    ∧ job_pushing_meta_task "jobB" "topic-win7" 2 "win64" "download-latest-nightly" []
        [("2020-02-02T02:00:00", ⟨"https://archive/u2", "abc123"⟩)] true
        "2020-02-02_02:00:00.000000" "run-1" []
        ⟨[("jobB", "2020-02-02T02:00:00")], []⟩
      = ⟨[("jobB", "2020-02-02T02:00:00")], []⟩ := by
  constructor
  · exact (C3_unchanged_noop (fun _ => "deadbeef") (fun _ => some "payload")
      (some ["/pub/firefox/nightly/latest-mozilla-central/firefox-56.0a1.en-US.win64.json"])
      "win64" "jobA" "2020-02-02T02:00:00" "deadbeef"
      [] [("jobA", "deadbeef")] ⟨[], []⟩ "t" "c" "n" "j" 1 [] []).1 rfl rfl true
  · exact ((C3_unchanged_noop (fun _ => "h") (fun _ => none) none
      "win64" "jobB" "2020-02-02T02:00:00" "deadbeef"
      [("2020-02-02T02:00:00", ⟨"https://archive/u2", "abc123"⟩)] []
      ⟨[("jobB", "2020-02-02T02:00:00")], []⟩
      "topic-win7" "download-latest-nightly" "2020-02-02_02:00:00.000000" "run-1" 2 [] []).2
      rfl rfl true).2

theorem publishedUids_append (a b : List TraceEvent) :
    publishedUids (a ++ b) = publishedUids a ++ publishedUids b := by
  unfold publishedUids
  rw [List.filterMap_append]

theorem publishedUids_status_cons (job_id tag : String) (n : Nat)
    (c : Option StatusContent) (l : List TraceEvent) :
    publishedUids (TraceEvent.status job_id tag n c :: l) = publishedUids l := by
  unfold publishedUids
  rw [List.filterMap_cons]

theorem publishedUids_publish_map (topic cmd : String) (cfg : CmdConfig) (uids : List String) :
    publishedUids (uids.map (fun uid => TraceEvent.publish topic cmd cfg uid)) = uids := by
  induction uids with
  | nil => rfl
  | cons u us ih =>
    unfold publishedUids at ih ⊢
    rw [List.map_cons, List.filterMap_cons]
    exact congrArg (List.cons u) ih

/-- Shape of a dispatch on a detected change: the exact state produced by
`job_pushing_meta_task` when the timestamp check reports a change. -/
theorem dispatch_trace_of_changed (job_name topic : String) (amount : Nat)
    (platform_build cmd_name : String) (overwrite_cmd_config : CmdConfig)
    (table : List (String × BuildInformation)) (folderOk : Bool)
    (now_string job_id : String) (sensitive : List String) (st : TriggerState)
    (hch : (check_latest_timestamp job_name table folderOk st.tsStore).1.1 = true) :
    job_pushing_meta_task job_name topic amount platform_build cmd_name overwrite_cmd_config
        table folderOk now_string job_id sensitive st
      = { tsStore := (check_latest_timestamp job_name table folderOk st.tsStore).2,
          trace := st.trace
            ++ TraceEvent.status job_id STATUS_TAG_PULSE_TRIGGER 100 none
              :: ((((List.range amount).map (taskUid now_string job_name)).map
                    (fun uid => TraceEvent.publish topic cmd_name
                      (dispatchedConfig cmd_name overwrite_cmd_config
                        (check_latest_timestamp job_name table folderOk st.tsStore).1.2) uid))
                ++ [TraceEvent.status job_id STATUS_TAG_PULSE_TRIGGER 900
                      (some { job_name := job_name, platform := platform_build, topic := topic,
                              amount := amount, cmd := cmd_name,
                              cmd_config := filter_cmd_config sensitive
                                (dispatchedConfig cmd_name overwrite_cmd_config
                                  (check_latest_timestamp job_name table folderOk st.tsStore).1.2),
                              task_uid_list := (List.range amount).map
                                (taskUid now_string job_name) })]) } := by
  unfold job_pushing_meta_task
  simp only [hch, if_true]

/-- C4: on every detected change with `amount = k ≥ 1` the dispatch
publishes exactly `k` messages whose uids are pairwise distinct, all
sharing the prefix built from the dispatch timestamp and the job name,
with suffixes exactly the decimal integers `1` through `k`, in order. -/
theorem C4_fanout (job_name topic : String) (amount : Nat)
    (platform_build cmd_name : String) (overwrite_cmd_config : CmdConfig)
    (table : List (String × BuildInformation)) (folderOk : Bool)
    (now_string job_id : String) (sensitive : List String) (st : TriggerState)
    (hch : (check_latest_timestamp job_name table folderOk st.tsStore).1.1 = true)
    (hk : 1 ≤ amount) :
    publishedUids (job_pushing_meta_task job_name topic amount platform_build cmd_name
        overwrite_cmd_config table folderOk now_string job_id sensitive st).trace
      = publishedUids st.trace ++ (List.range amount).map (taskUid now_string job_name)
    ∧ ((List.range amount).map (taskUid now_string job_name)).length = amount
    ∧ ((List.range amount).map (taskUid now_string job_name)).Nodup
    ∧ ∀ idx : Nat, taskUid now_string job_name idx
        = now_string ++ "." ++ job_name ++ "." ++ natToDecString (idx + 1) := by
  refine ⟨?_, by simp, taskUid_list_nodup now_string job_name amount, fun idx => rfl⟩
  rw [dispatch_trace_of_changed job_name topic amount platform_build cmd_name
    overwrite_cmd_config table folderOk now_string job_id sensitive st hch]
  rw [show ({ tsStore := (check_latest_timestamp job_name table folderOk st.tsStore).2,
              trace := st.trace ++ _ } : TriggerState).trace = st.trace ++ _ from rfl]
  rw [publishedUids_append, publishedUids_status_cons, publishedUids_append,
    publishedUids_publish_map, publishedUids_status_cons]
  rw [show publishedUids [] = [] from rfl, List.append_nil]

/-- Witness for C4 at concrete inputs: a fresh job (no stored timestamp)
with a one-row table detects a change; `amount = 2` yields the two
distinct uids with suffixes `1` and `2`. -/
theorem C4_fanout_witness :
    publishedUids (job_pushing_meta_task "jobB" "topic-win7" 2 "win64" "download-latest-nightly"
        [] [("2020-02-02T02:00:00", ⟨"https://archive/u2", "abc123"⟩)] true
        "2020-02-02_02:00:00.000000" "run-1" [] ⟨[], []⟩).trace
      = (List.range 2).map (taskUid "2020-02-02_02:00:00.000000" "jobB")
    ∧ ((List.range 2).map (taskUid "2020-02-02_02:00:00.000000" "jobB")).Nodup := by
  have h := C4_fanout "jobB" "topic-win7" 2 "win64" "download-latest-nightly" []
    [("2020-02-02T02:00:00", ⟨"https://archive/u2", "abc123"⟩)] true
    "2020-02-02_02:00:00.000000" "run-1" [] ⟨[], []⟩ rfl (by decide)
  exact ⟨by simpa using h.1, h.2.2.1⟩

/-- C7: on every detected change a STARTED record (ordering marker 100)
is written before any publish, and a COMPLETED record (ordering marker
900) after all `amount` publishes, the latter carrying the job name,
platform, topic, amount, command, the masked config and the complete
uid list. -/
theorem C7_status_records (job_name topic : String) (amount : Nat)
    (platform_build cmd_name : String) (overwrite_cmd_config : CmdConfig)
    (table : List (String × BuildInformation)) (folderOk : Bool)
    (now_string job_id : String) (sensitive : List String) (st : TriggerState)
    (hch : (check_latest_timestamp job_name table folderOk st.tsStore).1.1 = true) :
    ∃ out_cfg : CmdConfig,
      out_cfg = dispatchedConfig cmd_name overwrite_cmd_config
          (check_latest_timestamp job_name table folderOk st.tsStore).1.2
      ∧ (job_pushing_meta_task job_name topic amount platform_build cmd_name
          overwrite_cmd_config table folderOk now_string job_id sensitive st).trace
        = st.trace
          ++ TraceEvent.status job_id STATUS_TAG_PULSE_TRIGGER 100 none
            :: ((((List.range amount).map (taskUid now_string job_name)).map
                  (fun uid => TraceEvent.publish topic cmd_name out_cfg uid))
              ++ [TraceEvent.status job_id STATUS_TAG_PULSE_TRIGGER 900
                    (some { job_name := job_name, platform := platform_build, topic := topic,
                            amount := amount, cmd := cmd_name,
                            cmd_config := filter_cmd_config sensitive out_cfg,
                            task_uid_list := (List.range amount).map
                              (taskUid now_string job_name) })]) := by
  refine ⟨dispatchedConfig cmd_name overwrite_cmd_config
    (check_latest_timestamp job_name table folderOk st.tsStore).1.2, rfl, ?_⟩
  rw [dispatch_trace_of_changed job_name topic amount platform_build cmd_name
    overwrite_cmd_config table folderOk now_string job_id sensitive st hch]

/-- Witness for C7 at concrete inputs. -/
theorem C7_status_records_witness :
    ∃ out_cfg : CmdConfig,
      out_cfg = dispatchedConfig "download-latest-nightly" []
          (check_latest_timestamp "jobB"
            [("2020-02-02T02:00:00", ⟨"https://archive/u2", "abc123"⟩)] true []).1.2
      ∧ (job_pushing_meta_task "jobB" "topic-win7" 2 "win64" "download-latest-nightly"
          [] [("2020-02-02T02:00:00", ⟨"https://archive/u2", "abc123"⟩)] true
          "2020-02-02_02:00:00.000000" "run-1" [] ⟨[], []⟩).trace
        = []
          ++ TraceEvent.status "run-1" STATUS_TAG_PULSE_TRIGGER 100 none
            :: ((((List.range 2).map (taskUid "2020-02-02_02:00:00.000000" "jobB")).map
                  (fun uid => TraceEvent.publish "topic-win7" "download-latest-nightly" out_cfg uid))
              ++ [TraceEvent.status "run-1" STATUS_TAG_PULSE_TRIGGER 900
                    (some { job_name := "jobB", platform := "win64", topic := "topic-win7",
                            amount := 2, cmd := "download-latest-nightly",
                            cmd_config := filter_cmd_config [] out_cfg,
                            task_uid_list := (List.range 2).map
                              (taskUid "2020-02-02_02:00:00.000000" "jobB") })]) :=
  C7_status_records "jobB" "topic-win7" 2 "win64" "download-latest-nightly" []
    [("2020-02-02T02:00:00", ⟨"https://archive/u2", "abc123"⟩)] true
    "2020-02-02_02:00:00.000000" "run-1" [] ⟨[], []⟩ rfl

/-- C5 (amended): on every feed-fetch failure — network error or non-200
status (an empty listing), or an empty set of filenames matching the
platform suffix, or a failing artifact download — no signature is
written and no message is published, in both modes; the timestamp-mode
check returns not-changed without raising; but the hash-mode check
RAISES the failure to its caller (the fetch in
`check_latest_info_json_md5_changed` has no handler, and
`get_remote_md5` is called with a `None` URL when nothing matched), so
the md5 dispatch job propagates an exception to the scheduler boundary
instead of completing normally. -/
theorem C5_fetch_failure (md5f : String → String) (net : String → Option String)
    (listing : Option (List String))
    (job_name platform topic cmd_name now_string job_id : String)
    (amount : Nat) (overwrite_cmd_config : CmdConfig) (folderOk : Bool)
    (hashStore : SigStore) (sensitive : List String) (mst : Md5State) (st : TriggerState) :
    (get_latest_info_json_url_for_md5 platform listing = none →
      get_latest_info_json_md5_hash md5f net platform listing = Except.error ())
    ∧ (∀ url : String, get_latest_info_json_url_for_md5 platform listing = some url →
      net url = none →
      get_latest_info_json_md5_hash md5f net platform listing = Except.error ())
    ∧ (get_latest_info_json_md5_hash md5f net platform listing = Except.error () →
      check_latest_info_json_md5_changed md5f net job_name platform listing true hashStore
        = (Except.error (), hashStore))
    ∧ (get_latest_info_json_md5_hash md5f net platform listing = Except.error () →
      job_pushing_meta_task_md5 md5f net job_name topic amount platform cmd_name
        overwrite_cmd_config listing true now_string mst
        = (mst, Except.error ()))
    ∧ check_latest_timestamp job_name ([] : List (String × BuildInformation)) folderOk st.tsStore
        = ((false, none), st.tsStore)
    ∧ job_pushing_meta_task job_name topic amount platform cmd_name overwrite_cmd_config
        [] folderOk now_string job_id sensitive st = st := by
  have hcheck : get_latest_info_json_md5_hash md5f net platform listing = Except.error () →
      check_latest_info_json_md5_changed md5f net job_name platform listing true hashStore
        = (Except.error (), hashStore) := by
    intro h
    unfold check_latest_info_json_md5_changed
    rw [h]
    rfl
  refine ⟨?_, ?_, hcheck, ?_, rfl, rfl⟩
  · intro h
    unfold get_latest_info_json_md5_hash get_remote_md5
    rw [h]
  · intro url hu hn
    unfold get_latest_info_json_md5_hash get_remote_md5
    rw [hu]
    show (match net url with
      | none => Except.error ()
      | some content => Except.ok (md5f (hashedPortion content))) = Except.error ()
    rw [hn]
  · intro h
    have hc : check_latest_info_json_md5_changed md5f net job_name platform listing true
        mst.md5Store = (Except.error (), mst.md5Store) := by
      unfold check_latest_info_json_md5_changed
      rw [h]
      rfl
    unfold job_pushing_meta_task_md5
    simp only [hc]

/-- C5 counterexample: the original claim says every feed-fetch failure
leaves the signature check "completing without raising an exception to
its caller" in BOTH modes.  In hash mode an empty match set makes
`get_latest_info_json_url_for_md5` return `None`, which is passed
unchecked to `get_remote_md5`, where `urllib2.urlopen(None)` raises; the
exception leaves `check_latest_info_json_md5_changed` (first component
`Except.error`), so the hash-mode check does not complete normally. -/
theorem C5_counterexample :
    (check_latest_info_json_md5_changed (fun _ => "h") (fun _ => none) "jobA" "win64"
        (some []) true [("jobA", "deadbeef")]).1 = Except.error () := rfl

/-- Witness for C5 at concrete inputs: an empty listing (network error or
non-200 both produce it) makes the hash fetch raise, the md5 dispatch job
propagate the error with no publish and an untouched store, and the
timestamp dispatch job a no-op. -/
theorem C5_fetch_failure_witness :
    get_latest_info_json_md5_hash (fun _ => "h") (fun _ => none) "win64" (some [])
      = Except.error ()
    ∧ job_pushing_meta_task_md5 (fun _ => "h") (fun _ => none) "jobA" "topic-win7" 2 "win64"
        "download-latest-nightly" [] (some []) true "2020-02-02_02:00:00.000000"
        ⟨[("jobA", "deadbeef")], []⟩
      = (⟨[("jobA", "deadbeef")], []⟩, Except.error ())
    ∧ job_pushing_meta_task "jobB" "topic-win7" 2 "win64" "download-latest-nightly" []
        [] true "2020-02-02_02:00:00.000000" "run-1" [] ⟨[("jobB", "x")], []⟩
      = ⟨[("jobB", "x")], []⟩ := by
  refine ⟨?_, ?_, ?_⟩
  · exact (C5_fetch_failure (fun _ => "h") (fun _ => none) (some []) "jobA" "win64"
      "topic-win7" "download-latest-nightly" "2020-02-02_02:00:00.000000" "run-1" 2 [] true
      [("jobA", "deadbeef")] [] ⟨[("jobA", "deadbeef")], []⟩ ⟨[("jobB", "x")], []⟩).1 rfl
  · exact (C5_fetch_failure (fun _ => "h") (fun _ => none) (some []) "jobA" "win64"
      "topic-win7" "download-latest-nightly" "2020-02-02_02:00:00.000000" "run-1" 2 [] true
      [("jobA", "deadbeef")] [] ⟨[("jobA", "deadbeef")], []⟩ ⟨[("jobB", "x")], []⟩).2.2.2.1 rfl
  · exact (C5_fetch_failure (fun _ => "h") (fun _ => none) (some []) "jobB" "win64"
      "topic-win7" "download-latest-nightly" "2020-02-02_02:00:00.000000" "run-1" 2 [] true
      [("jobA", "deadbeef")] [] ⟨[("jobA", "deadbeef")], []⟩ ⟨[("jobB", "x")], []⟩).2.2.2.2.2

/-- C6: the claim says an empty fetch must fail closed and never
overwrite a stored valid signature with a value derived from the empty
fetch.  The code evaluation below shows the opposite: a successful fetch
of EMPTY content makes `get_remote_md5` hash zero bytes — the digest of
the empty byte string (the md5 collaborator is modelled concretely,
agreeing with real MD5 on the only input used: `md5("") =
d41d8cd98f00b204e9800998ecf8427e`) — and
`check_latest_info_json_md5_changed` treats it as an ordinary new
signature: the stored `deadbeef` is overwritten and the check reports
changed. -/
theorem C6_empty_fetch_overwrites :
    check_latest_info_json_md5_changed
        (fun content => if content = "" then "d41d8cd98f00b204e9800998ecf8427e" else "other")
        (fun _ => some "")
        "jobA" "win64"
        (some ["/pub/firefox/nightly/latest-mozilla-central/firefox-56.0a1.en-US.win64.json"])
        true [("jobA", "deadbeef")]
      = (Except.ok true, [("jobA", "d41d8cd98f00b204e9800998ecf8427e")]) := rfl

theorem dictLookup_mask_not_sensitive (sensitive : List String) (k : String)
    (hk : k ∉ sensitive) (cfg : CmdConfig) :
    dictLookup (mask_credential_value sensitive cfg) k = dictLookup cfg k := by
  induction cfg with
  | nil => rfl
  | cons p ps ih =>
    unfold mask_credential_value at ih ⊢
    rw [List.map_cons]
    by_cases hp : p.1 = k
    · have hps : p.1 ∉ sensitive := by rw [hp]; exact hk
      rw [if_neg hps, dictLookup_cons_of_pos k p _ hp, dictLookup_cons_of_pos k p ps hp]
    · by_cases hs : p.1 ∈ sensitive
      · rw [if_pos hs,
          dictLookup_cons_of_neg k (p.1, CfgVal.str "<REDACTED>") _ hp,
          dictLookup_cons_of_neg k p ps hp]
        exact ih
      · rw [if_neg hs, dictLookup_cons_of_neg k p _ hp, dictLookup_cons_of_neg k p ps hp]
        exact ih

theorem filter_step_preserves (sensitive : List String)
    (hs : "OVERWRITE_HASAL_SUITE_CASE_LIST" ∉ sensitive) (c : CmdConfig)
    (kv : String × CfgVal) (hk : kv.1 ≠ "OVERWRITE_HASAL_SUITE_CASE_LIST") :
    dictLookup (filter_cmd_config_step sensitive c kv) "OVERWRITE_HASAL_SUITE_CASE_LIST"
      = dictLookup c "OVERWRITE_HASAL_SUITE_CASE_LIST" := by
  unfold filter_cmd_config_step
  rw [if_neg hk, dictLookup_mask_not_sensitive sensitive _ hs]

theorem filter_fold_preserves (sensitive : List String)
    (hs : "OVERWRITE_HASAL_SUITE_CASE_LIST" ∉ sensitive) :
    ∀ (items : CmdConfig) (c : CmdConfig),
      (∀ kv ∈ items, kv.1 ≠ "OVERWRITE_HASAL_SUITE_CASE_LIST") →
      dictLookup (items.foldl (filter_cmd_config_step sensitive) c)
          "OVERWRITE_HASAL_SUITE_CASE_LIST"
        = dictLookup c "OVERWRITE_HASAL_SUITE_CASE_LIST" := by
  intro items
  induction items with
  | nil => intro c _; rfl
  | cons kv kvs ih =>
    intro c h
    rw [List.foldl_cons, ih _ (fun x hx => h x (List.mem_cons_of_mem kv hx)),
      filter_step_preserves sensitive hs c kv (h kv (List.mem_cons_self kv kvs))]

/-- C9: for every input config carrying the key
`OVERWRITE_HASAL_SUITE_CASE_LIST` (the key set of the masking
collaborator not containing it — it is a case list, not a credential),
the filtering pass leaves a sequence under that key: a literal list is
kept as is, a comma-joined string is split on commas. -/
theorem C9_case_list_normalized (sensitive : List String) (pre post : CmdConfig) (v : CfgVal)
    (hpost : ∀ kv ∈ post, kv.1 ≠ "OVERWRITE_HASAL_SUITE_CASE_LIST")
    (hs : "OVERWRITE_HASAL_SUITE_CASE_LIST" ∉ sensitive) :
    dictLookup (filter_cmd_config sensitive
        (pre ++ ("OVERWRITE_HASAL_SUITE_CASE_LIST", v) :: post))
        "OVERWRITE_HASAL_SUITE_CASE_LIST"
      = some (match v with
          | CfgVal.str s => CfgVal.list (pySplit s ',')
          | CfgVal.list l => CfgVal.list l) := by
  unfold filter_cmd_config
  rw [List.foldl_append, List.foldl_cons]
  rw [filter_fold_preserves sensitive hs post _ hpost]
  unfold filter_cmd_config_step
  rw [if_pos rfl, dictLookup_mask_not_sensitive sensitive _ hs, dictLookup_dictSet_self]
  cases v <;> rfl

/-- Witness for C9 at concrete inputs: a comma-joined string becomes the
two-element list, surviving masking of an unrelated credential key. -/
theorem C9_case_list_normalized_witness :
    dictLookup (filter_cmd_config ["pulse_password"]
        [("A", CfgVal.str "x"), ("OVERWRITE_HASAL_SUITE_CASE_LIST", CfgVal.str "a,b"),
         ("B", CfgVal.str "y")]) "OVERWRITE_HASAL_SUITE_CASE_LIST"
      = some (CfgVal.list ["a", "b"]) := by
  have h := C9_case_list_normalized ["pulse_password"] [("A", CfgVal.str "x")]
    [("B", CfgVal.str "y")] (CfgVal.str "a,b") (by decide) (by decide)
  exact h.trans (by decide)
